import Mathlib

/-!
# Verification of the `pm` project/task manager

Shallow embedding of the state-manipulating core of `src/src/App.jsx`
(two `App` variants: a cloud/realtime variant and a local-only variant)
and of the notification server handler (`src/unnamed/part_000`), with
theorems settling the specification claims about:

* the v1→v2 schema migration (`runMigrations`),
* the reconciliation helper (`upsertById`),
* project deletion cascade (`ProjectsManager.onDelete`, both variants),
* task save validation (`saveTask`, both variants),
* kanban drag-and-drop status transitions (`KanbanBoard.onDropTo`),
* CSV export (`toCSV` / `Dashboard.tasksCSV`),
* the `/api/notify` server handler.

Loosely-typed record fields coming from persisted JSON are modelled by
`JValue`; machine timestamps and fresh ids are passed in explicitly as
parameters, since the source obtains them from `Date`/`Math.random`.
-/

set_option maxHeartbeats 1000000

namespace PM

/-- A JavaScript value, as far as the dynamically-typed `projectId` field of a
persisted (pre-migration) task record can range over.  `undef` stands for an
absent field (reading a missing property yields `undefined` in JS). -/
inductive JValue where
  | str (s : String)
  | num (n : Int)
  | boolean (b : Bool)
  | null
  | undef
deriving DecidableEq, Repr

/-- The test `typeof v === "string"` for a `JValue`. -/
def JValue.isStr : JValue → Bool
  | .str _ => true
  | _ => false

/-- A task record as persisted in local storage before migration: the
`projectId` field is dynamically typed (it may be absent, null, or of a
wrong type); the remaining fields are irrelevant to (and untouched by)
the migration, represented here by `id` and `title`. -/
structure RawTask where
  id : String
  title : String
  projectId : JValue
deriving DecidableEq, Repr

/-- A project record (`EMPTY_PROJECT` shape, App.jsx line 42). -/
structure Project where
  id : String
  name : String
  startDate : String
  endDate : String
  milestonesText : String
deriving DecidableEq, Repr

/-- Target schema version (`SCHEMA_VERSION`, App.jsx line 21). -/
def SCHEMA_VERSION : Nat := 2

/-- The per-task rewrite of the v1→v2 migration (App.jsx lines 25-29):
`{ projectId: "", ...t, projectId: typeof t.projectId === "string" ?
t.projectId : (t.projectId ?? "") }`.  The final duplicate key wins, so the
migrated `projectId` is: kept if it is a string, the empty string if it was
`null`/`undefined` (the `??` operator), and otherwise the original value
unchanged.  All other fields are spread through unchanged. -/
def migrateTask (t : RawTask) : RawTask :=
  { t with projectId :=
      match t.projectId with
      | JValue.str s => JValue.str s
      | JValue.null => JValue.str ""
      | JValue.undef => JValue.str ""
      | v => v }

/-- Result of `runMigrations`: the returned `{ tasks, projects }` pair plus
the schema-version counter as left in storage afterwards. -/
structure MigResult where
  tasks : List RawTask
  projects : List Project
  storedVersion : Nat
deriving DecidableEq, Repr

/-- Shallow embedding of `runMigrations(tasks, projects)` (App.jsx lines
22-32).  `storedVersion` is the counter read from storage
(`Number(localStorage.getItem(SCHEMA_KEY) || 1)`); when it is at or above
`SCHEMA_VERSION` the inputs are returned unchanged and the counter is not
written, otherwise every task is rewritten by `migrateTask` and the counter
is set to `SCHEMA_VERSION`. -/
def runMigrations (storedVersion : Nat) (tasks : List RawTask)
    (projects : List Project) : MigResult :=
  if SCHEMA_VERSION ≤ storedVersion then ⟨tasks, projects, storedVersion⟩
  else ⟨tasks.map migrateTask, projects, SCHEMA_VERSION⟩

/-- C1 (counterexample): the claim "every migrated task's `projectId` is a
string, with `""` substituted whenever it was absent or not a string" fails
on the code: a task whose stored `projectId` is the number `5` is migrated
below version 2 with `projectId` still the number `5` (the `??` operator only
replaces `null`/`undefined`), which is not a string. -/
theorem runMigrations_string_guarantee_fails :
    ¬ (∀ t' ∈ (runMigrations 1 [⟨"t1", "Design mock", JValue.num 5⟩] []).tasks,
        t'.projectId.isStr = true) := by
  decide

/-- The migrated `projectId` of a task whose stored `projectId` is a string,
`null`, or absent is the original when a string and `""` otherwise. -/
theorem migrateTask_projectId_of (t : RawTask)
    (h : t.projectId.isStr = true ∨ t.projectId = JValue.null ∨
      t.projectId = JValue.undef) :
    (migrateTask t).projectId =
      (if t.projectId.isStr then t.projectId else JValue.str "") ∧
    (migrateTask t).projectId.isStr = true := by
  cases hp : t.projectId <;> simp_all [migrateTask, JValue.isStr]

/-- C1 (amended): migrating below version 2 preserves the task count and
rewrites each task's `projectId` to itself when it is a string and to the
empty string when it is `null` or absent (`undefined`); hence, whenever every
stored task's `projectId` is a string, `null`, or absent, every migrated
task's `projectId` is a string. -/
theorem runMigrations_projectId_string (storedVersion : Nat)
    (tasks : List RawTask) (projects : List Project)
    (hv : storedVersion < SCHEMA_VERSION)
    (h : ∀ t ∈ tasks, t.projectId.isStr = true ∨ t.projectId = JValue.null ∨
      t.projectId = JValue.undef) :
    (runMigrations storedVersion tasks projects).tasks.length = tasks.length ∧
    (∀ i : Nat, ((runMigrations storedVersion tasks projects).tasks[i]?).map
        RawTask.projectId =
      (tasks[i]?).map (fun t =>
        if t.projectId.isStr then t.projectId else JValue.str "")) ∧
    ∀ t' ∈ (runMigrations storedVersion tasks projects).tasks,
      t'.projectId.isStr = true := by
  have hv' : ¬ SCHEMA_VERSION ≤ storedVersion := by omega
  simp only [runMigrations, if_neg hv']
  refine ⟨List.length_map _ _, ?_, ?_⟩
  · intro i
    rw [List.getElem?_map]
    cases hm : tasks[i]? with
    | none => rfl
    | some t =>
      have ht : t ∈ tasks := List.getElem?_mem hm
      simp only [Option.map_some']
      exact congrArg some ((migrateTask_projectId_of t (h t ht)).1)
  · intro t' ht'
    rcases List.mem_map.mp ht' with ⟨t, ht, rfl⟩
    exact (migrateTask_projectId_of t (h t ht)).2

/-- Witness for the amended C1 theorem at a concrete migration: version 1,
one task with absent `projectId` and one with a string `projectId`. -/
theorem runMigrations_projectId_string_witness :
    (runMigrations 1 [⟨"t1", "Design", JValue.undef⟩,
        ⟨"t2", "Mock", JValue.str "p1"⟩] []).tasks.length =
      ([⟨"t1", "Design", JValue.undef⟩,
        ⟨"t2", "Mock", JValue.str "p1"⟩] : List RawTask).length ∧
    (∀ i : Nat, ((runMigrations 1 [⟨"t1", "Design", JValue.undef⟩,
        ⟨"t2", "Mock", JValue.str "p1"⟩] []).tasks[i]?).map
        RawTask.projectId =
      (([⟨"t1", "Design", JValue.undef⟩,
        ⟨"t2", "Mock", JValue.str "p1"⟩] : List RawTask)[i]?).map (fun t =>
        if t.projectId.isStr then t.projectId else JValue.str "")) ∧
    ∀ t' ∈ (runMigrations 1 [⟨"t1", "Design", JValue.undef⟩,
        ⟨"t2", "Mock", JValue.str "p1"⟩] []).tasks,
      t'.projectId.isStr = true :=
  runMigrations_projectId_string 1 _ [] (by decide) (by decide)

/-- C5: when the stored schema version is at or above `SCHEMA_VERSION` (= 2),
`runMigrations` returns its task-list and project-list inputs unchanged and
leaves the stored version as it was, so running the migration a second time
at the same version returns the same unchanged inputs again (a no-op). -/
theorem runMigrations_noop (storedVersion : Nat) (tasks : List RawTask)
    (projects : List Project) (h : SCHEMA_VERSION ≤ storedVersion) :
    runMigrations storedVersion tasks projects = ⟨tasks, projects, storedVersion⟩ ∧
    runMigrations (runMigrations storedVersion tasks projects).storedVersion
        (runMigrations storedVersion tasks projects).tasks
        (runMigrations storedVersion tasks projects).projects =
      ⟨tasks, projects, storedVersion⟩ := by
  simp [runMigrations, if_pos h]

/-- Witness for C5 at stored version 2 with a one-task, one-project state. -/
theorem runMigrations_noop_witness :
    runMigrations 2 [⟨"t1", "Design", JValue.str "p1"⟩]
        [⟨"p1", "Website", "", "", ""⟩] =
      ⟨[⟨"t1", "Design", JValue.str "p1"⟩], [⟨"p1", "Website", "", "", ""⟩], 2⟩ ∧
    runMigrations (runMigrations 2 [⟨"t1", "Design", JValue.str "p1"⟩]
          [⟨"p1", "Website", "", "", ""⟩]).storedVersion
        (runMigrations 2 [⟨"t1", "Design", JValue.str "p1"⟩]
          [⟨"p1", "Website", "", "", ""⟩]).tasks
        (runMigrations 2 [⟨"t1", "Design", JValue.str "p1"⟩]
          [⟨"p1", "Website", "", "", ""⟩]).projects =
      ⟨[⟨"t1", "Design", JValue.str "p1"⟩], [⟨"p1", "Website", "", "", ""⟩], 2⟩ :=
  runMigrations_noop 2 _ _ (by decide)

/-- Shallow embedding of `upsertById(list, item, key = "id")` (App.jsx lines
44-50): find the index of the first element whose key equals the item's key
(`findIndex`); if there is none (`-1`) append the item, otherwise replace the
element at that index (`next[i] = item`).  Every call site uses the default
key `"id"`, abstracted here as the key projection `key`. -/
def upsertById {α : Type} (key : α → String) (list : List α) (item : α) :
    List α :=
  match list.findIdx? (fun x => key x == key item) with
  | none => list ++ [item]
  | some i => list.set i item

/-- Unfolding of `upsertById` on a cons cell. -/
theorem upsertById_cons {α : Type} (key : α → String) (x : α) (xs : List α)
    (item : α) :
    upsertById key (x :: xs) item =
      if key x = key item then item :: xs
      else x :: upsertById key xs item := by
  by_cases h : key x = key item
  · have hb : (key x == key item) = true := by simp [h]
    simp [upsertById, List.findIdx?_cons, hb, h]
  · have hb : (key x == key item) = false := by simp [h]
    simp only [upsertById, List.findIdx?_cons, hb, Bool.false_eq_true,
      if_neg h, Nat.zero_add, if_false, List.findIdx?_succ]
    cases hf : xs.findIdx? (fun y => key y == key item) with
    | none => simp
    | some i => simp

/-- Every element of `upsertById key l item` is the new item or an element of
the input list. -/
theorem mem_upsertById {α : Type} (key : α → String) (l : List α) (item : α) :
    ∀ y ∈ upsertById key l item, y = item ∨ y ∈ l := by
  induction l with
  | nil =>
    intro y hy
    simp only [upsertById, List.findIdx?_nil, List.nil_append,
      List.mem_singleton] at hy
    exact Or.inl hy
  | cons x xs ih =>
    intro y hy
    rw [upsertById_cons] at hy
    by_cases h : key x = key item
    · rw [if_pos h] at hy
      rcases List.mem_cons.mp hy with rfl | hmem
      · exact Or.inl rfl
      · exact Or.inr (List.mem_cons_of_mem x hmem)
    · rw [if_neg h] at hy
      rcases List.mem_cons.mp hy with rfl | hmem
      · exact Or.inr (List.mem_cons_self y xs)
      · rcases ih y hmem with hi | hi
        · exact Or.inl hi
        · exact Or.inr (List.mem_cons_of_mem x hi)

/-- C3: `upsertById(list, item)` appends the item when no element shares its
key, and otherwise leaves the length unchanged, stores the item at the
position of an element carrying that key, and leaves every other position
untouched. -/
theorem upsertById_spec {α : Type} (key : α → String) (list : List α)
    (item : α) :
    ((∀ x ∈ list, key x ≠ key item) →
      upsertById key list item = list ++ [item]) ∧
    ((∃ x ∈ list, key x = key item) →
      ∃ (i : Nat) (x : α), list[i]? = some x ∧ key x = key item ∧
        (upsertById key list item).length = list.length ∧
        (upsertById key list item)[i]? = some item ∧
        ∀ j, j ≠ i → (upsertById key list item)[j]? = list[j]?) := by
  constructor
  · intro hnone
    have hf : list.findIdx? (fun x => key x == key item) = none := by
      rw [List.findIdx?_eq_none_iff]
      intro x hx
      simp [hnone x hx]
    simp [upsertById, hf]
  · rintro ⟨x, hx, hkey⟩
    have hex : ∃ y, y ∈ list ∧ (fun z => key z == key item) y = true :=
      ⟨x, hx, by simp [hkey]⟩
    have hsome : (list.findIdx? (fun z => key z == key item)).isSome := by
      rw [List.findIdx?_isSome, List.any_eq_true]
      exact hex
    rcases Option.isSome_iff_exists.mp hsome with ⟨i, hf⟩
    have hget := List.findIdx?_eq_some_iff_getElem.mp hf
    rcases hget with ⟨hlt, hp, -⟩
    have hres : upsertById key list item = list.set i item := by
      simp [upsertById, hf]
    refine ⟨i, list[i], by simp [List.getElem?_eq_getElem hlt], ?_, ?_, ?_, ?_⟩
    · simpa using hp
    · simp [hres]
    · rw [hres]
      exact List.getElem?_set_self hlt
    · intro j hj
      rw [hres]
      exact List.getElem?_set_ne (Ne.symm hj)

/-- Sample projects used as concrete witness inputs. -/
def pA : Project := ⟨"p1", "Website", "", "", ""⟩

/-- Sample project with a fresh id. -/
def pB : Project := ⟨"p2", "App", "", "", ""⟩

/-- Sample project sharing `pA`'s id (an update of it). -/
def pA2 : Project := ⟨"p1", "Rebrand", "2024-01-01", "2024-02-01", ""⟩

/-- Witness for C3: appending a fresh-id project and replacing a matching-id
project in a concrete two-project list. -/
theorem upsertById_spec_witness :
    upsertById Project.id [pA] pB = [pA] ++ [pB] ∧
    ∃ (i : Nat) (x : Project), ([pA, pB] : List Project)[i]? = some x ∧
      Project.id x = Project.id pA2 ∧
      (upsertById Project.id [pA, pB] pA2).length =
        ([pA, pB] : List Project).length ∧
      (upsertById Project.id [pA, pB] pA2)[i]? = some pA2 ∧
      ∀ j, j ≠ i →
        (upsertById Project.id [pA, pB] pA2)[j]? =
          ([pA, pB] : List Project)[j]? :=
  ⟨(upsertById_spec Project.id [pA] pB).1 (by decide),
   (upsertById_spec Project.id [pA, pB] pA2).2 ⟨pA, by decide, by decide⟩⟩

/-- C4: `upsertById` is idempotent — upserting the same item twice yields the
same list as upserting it once. -/
theorem upsertById_idem {α : Type} (key : α → String) (list : List α)
    (item : α) :
    upsertById key (upsertById key list item) item =
      upsertById key list item := by
  induction list with
  | nil =>
    simp [upsertById, List.findIdx?_nil, List.findIdx?_cons]
  | cons x xs ih =>
    rw [upsertById_cons]
    by_cases h : key x = key item
    · rw [if_pos h, upsertById_cons, if_pos rfl]
    · rw [if_neg h, upsertById_cons, if_neg h, ih]

/-- C10: when the input list's keys are pairwise distinct, `upsertById`
preserves key-distinctness, keeps the length when the item's key is already
present, and grows the length by one when it is absent. -/
theorem upsertById_invariants {α : Type} (key : α → String) (list : List α)
    (item : α) (h : (list.map key).Nodup) :
    ((upsertById key list item).map key).Nodup ∧
    ((∃ x ∈ list, key x = key item) →
      (upsertById key list item).length = list.length) ∧
    ((∀ x ∈ list, key x ≠ key item) →
      (upsertById key list item).length = list.length + 1) := by
  induction list with
  | nil =>
    refine ⟨?_, ?_, ?_⟩
    · simp [upsertById, List.findIdx?_nil]
    · rintro ⟨x, hx, -⟩
      exact absurd hx (List.not_mem_nil x)
    · intro _
      simp [upsertById, List.findIdx?_nil]
  | cons x xs ih =>
    rw [List.map_cons, List.nodup_cons] at h
    rcases h with ⟨hnx, hnd⟩
    rcases ih hnd with ⟨ih1, ih2, ih3⟩
    by_cases hk : key x = key item
    · rw [upsertById_cons, if_pos hk]
      refine ⟨?_, ?_, ?_⟩
      · rw [List.map_cons, List.nodup_cons]
        exact ⟨hk ▸ hnx, hnd⟩
      · intro _
        simp
      · intro hall
        exact absurd hk (hall x (List.mem_cons_self x xs))
    · rw [upsertById_cons, if_neg hk]
      refine ⟨?_, ?_, ?_⟩
      · rw [List.map_cons, List.nodup_cons]
        refine ⟨?_, ih1⟩
        intro hmem
        rcases List.mem_map.mp hmem with ⟨y, hy, hky⟩
        rcases mem_upsertById key xs item y hy with rfl | hyx
        · exact hk hky.symm
        · exact hnx (List.mem_map.mpr ⟨y, hyx, hky⟩)
      · rintro ⟨z, hz, hkz⟩
        rcases List.mem_cons.mp hz with rfl | hzx
        · exact absurd hkz hk
        · simp only [List.length_cons]
          rw [ih2 ⟨z, hzx, hkz⟩]
      · intro hall
        simp only [List.length_cons]
        rw [ih3 (fun y hy => hall y (List.mem_cons_of_mem x hy))]

/-- Witness for C10: upserting an update of `pA` into the distinct-id list
`[pA, pB]` keeps distinct ids and the length `2`. -/
theorem upsertById_invariants_witness :
    ((upsertById Project.id [pA, pB] pA2).map Project.id).Nodup ∧
    (upsertById Project.id [pA, pB] pA2).length =
      ([pA, pB] : List Project).length :=
  ⟨(upsertById_invariants Project.id [pA, pB] pA2 (by decide)).1,
   (upsertById_invariants Project.id [pA, pB] pA2 (by decide)).2.1
     ⟨pA, by decide, by decide⟩⟩

/-- A task record in the app shape (`EMPTY_TASK`, App.jsx lines 38-41).
Attachments and comments are opaque payloads here: no verified claim
inspects their internal structure, and the operations below only carry them
through unchanged. -/
structure Task where
  id : String
  projectId : String
  title : String
  assignee : String
  priority : String
  status : String
  dueDate : String
  estimateHrs : Int
  attachments : List String
  comments : List String
  updatedAt : String
deriving DecidableEq, Repr

/-- Embedding of `ProjectsManager.onDelete` in the cloud variant (App.jsx lines 479-484):
filter the project out of the project list and clear the `projectId` of every
task that pointed to it.  The subsequent remote delete is fire-and-forget
(`try { ... await cloudDeleteProject(id) } catch {}`) and never touches the
local state, so it is not part of the state transition. -/
def onDeleteProject (pid : String) (projects : List Project)
    (tasks : List Task) : List Project × List Task :=
  (projects.filter (fun x => x.id != pid),
   tasks.map (fun t => if t.projectId = pid then { t with projectId := "" }
     else t))

/-- Embedding of `ProjectsManager.onDelete` in the local-only variant (App.jsx line 1224):
it only filters the project list; the component does not even receive
`setTasks`, so the task list is left untouched. -/
def onDeleteProjectLocal (pid : String) (projects : List Project)
    (tasks : List Task) : List Project × List Task :=
  (projects.filter (fun x => x.id != pid), tasks)

/-- Sample task pointing at project `"p1"`, used as a concrete input. -/
def tDesign : Task :=
  ⟨"t1", "p1", "Design mock", "", "Medium", "Todo", "2024-01-01", 0, [], [],
   ""⟩

/-- Sample task pointing at project `"p2"`. -/
def tShip : Task :=
  ⟨"t2", "p2", "Ship", "sam", "High", "In Progress", "", 3, [], [], ""⟩

/-- C2 (counterexample): in the local-only `App` variant, deleting project
`"p1"` leaves the task that points to it with `projectId` still `"p1"` — the
reference is not cleared, refuting the claim for "every App variant". -/
theorem projectDelete_cascade_fails_local :
    ¬ (∀ t ∈ (onDeleteProjectLocal "p1" [pA] [tDesign]).2,
        t.projectId ≠ "p1") := by
  decide

/-- C2 (amended): in the cloud variant, deleting a project removes exactly
the projects carrying its id from the project list, keeps the task count,
clears the `projectId` of each task that pointed to the deleted project and
leaves every other task unchanged; in the local-only variant the project is
removed the same way but the task list is returned untouched (dangling
references are not cleared). -/
theorem onDeleteProject_spec (pid : String) (projects : List Project)
    (tasks : List Task) :
    (∀ q, q ∈ (onDeleteProject pid projects tasks).1 ↔
      q ∈ projects ∧ q.id ≠ pid) ∧
    (onDeleteProject pid projects tasks).2.length = tasks.length ∧
    (∀ i : Nat, ∀ t, tasks[i]? = some t →
      (t.projectId = pid → (onDeleteProject pid projects tasks).2[i]? =
        some { t with projectId := "" }) ∧
      (t.projectId ≠ pid →
        (onDeleteProject pid projects tasks).2[i]? = some t)) ∧
    (onDeleteProjectLocal pid projects tasks).1 =
      (onDeleteProject pid projects tasks).1 ∧
    (onDeleteProjectLocal pid projects tasks).2 = tasks := by
  refine ⟨?_, ?_, ?_, rfl, rfl⟩
  · intro q
    simp [onDeleteProject, List.mem_filter]
  · simp [onDeleteProject]
  · intro i t hm
    constructor
    · intro hp
      simp [onDeleteProject, List.getElem?_map, hm, if_pos hp]
    · intro hp
      simp [onDeleteProject, List.getElem?_map, hm, if_neg hp]

/-- Witness for C2 (amended) at the concrete state with projects
`[pA, pB]` and tasks `[tDesign, tShip]`, deleting `"p1"`: `pA` is gone,
`tDesign` is uncoupled, `tShip` is untouched, and the local-only variant
keeps both tasks verbatim. -/
theorem onDeleteProject_spec_witness :
    (pA ∈ ([pA, pB] : List Project) ∧ pA.id ≠ "p1" ↔
      pA ∈ (onDeleteProject "p1" [pA, pB] [tDesign, tShip]).1) ∧
    (onDeleteProject "p1" [pA, pB] [tDesign, tShip]).2.length =
      ([tDesign, tShip] : List Task).length ∧
    (onDeleteProject "p1" [pA, pB] [tDesign, tShip]).2[0]? =
      some { tDesign with projectId := "" } ∧
    (onDeleteProject "p1" [pA, pB] [tDesign, tShip]).2[1]? = some tShip ∧
    (onDeleteProjectLocal "p1" [pA, pB] [tDesign, tShip]).2 =
      [tDesign, tShip] := by
  have h := onDeleteProject_spec "p1" [pA, pB] [tDesign, tShip]
  refine ⟨(h.1 pA).symm, h.2.1, ?_, ?_, h.2.2.2.2⟩
  · exact (h.2.2.1 0 tDesign (by decide)).1 (by decide)
  · exact (h.2.2.1 1 tShip (by decide)).2 (by decide)

/-- JavaScript `String.prototype.trim`, modelled on the character list:
strip leading and trailing whitespace. -/
def jsTrim (s : String) : String :=
  String.mk
    (((s.data.dropWhile Char.isWhitespace).reverse.dropWhile
      Char.isWhitespace).reverse)

/-- Result of a `saveTask` call: the updated task list, whether the
validation alert fired, and the `notifyTaskSaved` payloads dispatched
(task, `isNew` flag). -/
structure SaveOutcome where
  tasks : List Task
  alerted : Bool
  notified : List (Task × Bool)
deriving DecidableEq, Repr

/-- Embedding of `App.saveTask(task)` (App.jsx lines 824-834, and identically lines
1560-1569 in the local-only variant; the cloud variant additionally fires a
caught, fire-and-forget remote upsert that never changes local state).
If the trimmed title is empty an alert fires and nothing else happens.
Otherwise the draft is normalized (`{ ...EMPTY_TASK, ...task, id: task.id ||
uid(), title, status: task.status || "Todo", priority: task.priority ||
"Medium", estimateHrs: Number(task.estimateHrs) || 0, updatedAt: new
Date().toISOString() }`; on this model's typed fields `Number(...) || 0` is
the identity, `uid()` is the `freshId` parameter and the timestamp is `now`)
and upserted into the list by id, and `notifyTaskSaved` fires with the
`isNew` flag computed before the update. -/
def saveTask (tasks : List Task) (draft : Task) (freshId now : String) :
    SaveOutcome :=
  let title := jsTrim draft.title
  if title = "" then ⟨tasks, true, []⟩
  else
    let normalized : Task :=
      { draft with
          id := if draft.id = "" then freshId else draft.id,
          title := title,
          status := if draft.status = "" then "Todo" else draft.status,
          priority := if draft.priority = "" then "Medium" else draft.priority,
          updatedAt := now }
    let isNew := !(tasks.any (fun t => t.id == normalized.id))
    ⟨if tasks.any (fun t => t.id == normalized.id) then
        tasks.map (fun t => if t.id = normalized.id then normalized else t)
      else tasks ++ [normalized],
     false, [(normalized, isNew)]⟩

/-- C6: saving a task whose title is empty or whitespace-only fires the
user-facing alert, leaves the task list unchanged, and dispatches no save
notification — no partial save occurs (same code path in both variants). -/
theorem saveTask_rejects_blank_title (tasks : List Task) (draft : Task)
    (freshId now : String) (h : jsTrim draft.title = "") :
    (saveTask tasks draft freshId now).tasks = tasks ∧
    (saveTask tasks draft freshId now).alerted = true ∧
    (saveTask tasks draft freshId now).notified = [] := by
  simp [saveTask, h]

/-- Witness for C6: saving a draft with the whitespace-only title `"   "`
into the one-task list `[tShip]` leaves it unchanged and alerts. -/
theorem saveTask_rejects_blank_title_witness :
    (saveTask [tShip] { tDesign with title := "   " } "f1" "T1").tasks =
      [tShip] ∧
    (saveTask [tShip] { tDesign with title := "   " } "f1" "T1").alerted =
      true ∧
    (saveTask [tShip] { tDesign with title := "   " } "f1" "T1").notified =
      [] :=
  saveTask_rejects_blank_title [tShip] { tDesign with title := "   " }
    "f1" "T1" (by decide)

/-- In a list whose keys are pairwise distinct, `find?` on a key match
returns exactly the member carrying that key. -/
theorem find?_key_of_nodup {α : Type} (key : α → String) (l : List α)
    (hnd : (l.map key).Nodup) (t : α) (ht : t ∈ l) (k : String)
    (hk : key t = k) :
    l.find? (fun x => key x == k) = some t := by
  induction l with
  | nil => cases ht
  | cons x xs ih =>
    rw [List.map_cons, List.nodup_cons] at hnd
    rcases hnd with ⟨hx, hnd⟩
    rcases List.mem_cons.mp ht with rfl | hmem
    · exact List.find?_cons_of_pos xs (by simp [hk])
    · by_cases hxk : key x = k
      · exact absurd (List.mem_map.mpr ⟨t, hmem, hk.trans hxk.symm⟩) hx
      · rw [List.find?_cons_of_neg xs (by simp [hxk])]
        exact ih hnd hmem

/-- Result of a kanban drop: the updated task list and the
`onStatusChanged` notification payloads queued by the handler
(task with new status, old status, new status). -/
structure DropOutcome where
  tasks : List Task
  notifications : List (Task × String × String)
deriving DecidableEq, Repr

/-- Embedding of `KanbanBoard.onDropTo(status)` (App.jsx lines 319-329, identical at
lines 1138-1148 in the local-only variant) applied to a drop of the card
with the given dragged `id` onto the `status` lane: if no task has that id or
it already has that status, the list is returned as is and nothing fires;
otherwise the matching task gets the new status and a fresh `updatedAt`
(modelled by `now`) and exactly one `onStatusChanged({ ...t, status }, old,
status)` call is queued via `queueMicrotask` with `old = t.status ||
"Todo"`. -/
def onDropTo (status id now : String) (prev : List Task) : DropOutcome :=
  match prev.find? (fun x => x.id == id) with
  | none => ⟨prev, []⟩
  | some t =>
    if t.status = status then ⟨prev, []⟩
    else
      ⟨prev.map (fun x =>
          if x.id = id then { x with status := status, updatedAt := now }
          else x),
       [({ t with status := status },
         if t.status = "" then "Todo" else t.status, status)]⟩

/-- C7: in a task list with distinct ids containing a task `t` with id `X`
and status `"Todo"`, dropping that card onto the `"Done"` lane keeps the task
count, rewrites exactly the task with id `X` to status `"Done"` with the
fresh timestamp while every other task is unchanged, and queues exactly one
status-change notification carrying the pair (from `"Todo"`, to
`"Done"`). -/
theorem onDropTo_todo_done (prev : List Task) (X now : String) (t : Task)
    (hnd : (prev.map Task.id).Nodup) (ht : t ∈ prev) (hid : t.id = X)
    (hst : t.status = "Todo") :
    (onDropTo "Done" X now prev).tasks.length = prev.length ∧
    (∀ i : Nat, ∀ u, prev[i]? = some u →
      (u.id = X → (onDropTo "Done" X now prev).tasks[i]? =
        some { u with status := "Done", updatedAt := now }) ∧
      (u.id ≠ X → (onDropTo "Done" X now prev).tasks[i]? = some u)) ∧
    (onDropTo "Done" X now prev).notifications =
      [({ t with status := "Done" }, "Todo", "Done")] := by
  have hf : prev.find? (fun x => x.id == X) = some t :=
    find?_key_of_nodup Task.id prev hnd t ht X hid
  have hne : ¬ t.status = "Done" := by rw [hst]; decide
  refine ⟨?_, ?_, ?_⟩
  · simp [onDropTo, hf, if_neg hne]
  · intro i u hm
    constructor
    · intro hu
      simp [onDropTo, hf, if_neg hne, List.getElem?_map, hm, if_pos hu]
    · intro hu
      simp [onDropTo, hf, if_neg hne, List.getElem?_map, hm, if_neg hu]
  · have hnz : ¬ t.status = "" := by rw [hst]; decide
    simp [onDropTo, hf, if_neg hne, if_neg hnz, hst]

/-- Witness for C7: dropping `tDesign` (id `"t1"`, status `"Todo"`) onto the
`"Done"` lane in `[tDesign, tShip]`. -/
theorem onDropTo_todo_done_witness :
    (onDropTo "Done" "t1" "T2" [tDesign, tShip]).tasks.length =
      ([tDesign, tShip] : List Task).length ∧
    (onDropTo "Done" "t1" "T2" [tDesign, tShip]).tasks[0]? =
      some { tDesign with status := "Done", updatedAt := "T2" } ∧
    (onDropTo "Done" "t1" "T2" [tDesign, tShip]).tasks[1]? = some tShip ∧
    (onDropTo "Done" "t1" "T2" [tDesign, tShip]).notifications =
      [({ tDesign with status := "Done" }, "Todo", "Done")] := by
  have h := onDropTo_todo_done [tDesign, tShip] "t1" "T2" tDesign
    (by decide) (by decide) (by decide) (by decide)
  exact ⟨h.1, (h.2.1 0 tDesign (by decide)).1 (by decide),
    (h.2.1 1 tShip (by decide)).2 (by decide), h.2.2⟩

/-- JavaScript `String.prototype.replaceAll` for a single-character pattern,
modelled on the character list: each occurrence of `a` is replaced by the
character sequence `b`. -/
def replaceAllChar : List Char → Char → List Char → List Char
  | [], _, _ => []
  | c :: cs, a, b => (if c = a then b else [c]) ++ replaceAllChar cs a b

/-- The replaced character no longer occurs when the replacement avoids it. -/
theorem not_mem_replaceAllChar (cs : List Char) (a : Char) (b : List Char)
    (hb : a ∉ b) : a ∉ replaceAllChar cs a b := by
  induction cs with
  | nil => simp [replaceAllChar]
  | cons c cs ih =>
    simp only [replaceAllChar, List.mem_append]
    rintro (hc | hc)
    · by_cases h : c = a
      · rw [if_pos h] at hc
        exact hb hc
      · rw [if_neg h] at hc
        exact h (List.mem_singleton.mp hc).symm
    · exact ih hc

/-- The CSV field escaper `esc` (App.jsx lines 555 and 1298):
`v => \x22${String(v ?? "").replaceAll('"','""').replaceAll("\n"," ")}\x22` —
double internal quotes, squash newlines to spaces, wrap in quotes.  The
`String(v ?? "")` coercion is the identity here since the dashboard rows
below stringify their one numeric column up front. -/
def csvEsc (v : String) : String :=
  "\"" ++
    String.mk (replaceAllChar (replaceAllChar v.data '"' ['"', '"'])
      '\n' [' ']) ++ "\""

/-- An escaped CSV field contains no newline character. -/
theorem newline_not_mem_csvEsc (v : String) : '\n' ∉ (csvEsc v).data := by
  have hinner :
      '\n' ∉ replaceAllChar (replaceAllChar v.data '"' ['"', '"'])
        '\n' [' '] :=
    not_mem_replaceAllChar _ _ _ (by decide)
  simp only [csvEsc, String.data_append, List.mem_append]
  rintro ((hc | hc) | hc)
  · exact absurd hc (by decide)
  · exact hinner hc
  · exact absurd hc (by decide)

/-- A character occurring neither in the separator nor in any part does not
occur in the fold inside `String.intercalate`. -/
theorem not_mem_intercalate_go (c : Char) (s : String) (l : List String) :
    ∀ acc : String, c ∉ acc.data → c ∉ s.data →
      (∀ x ∈ l, c ∉ x.data) → c ∉ (String.intercalate.go acc s l).data := by
  induction l with
  | nil =>
    intro acc hacc _ _
    simpa [String.intercalate.go] using hacc
  | cons a as ih =>
    intro acc hacc hs hl
    rw [String.intercalate.go]
    refine ih (acc ++ s ++ a) ?_ hs (fun x hx => hl x (List.mem_cons_of_mem a hx))
    simp only [String.data_append, List.mem_append]
    rintro ((hc | hc) | hc)
    · exact hacc hc
    · exact hs hc
    · exact hl a (List.mem_cons_self a as) hc

/-- A character occurring neither in the separator nor in any part does not
occur in their intercalation. -/
theorem not_mem_intercalate (c : Char) (s : String) (l : List String)
    (hs : c ∉ s.data) (hl : ∀ x ∈ l, c ∉ x.data) :
    c ∉ (String.intercalate s l).data := by
  cases l with
  | nil => simp [String.intercalate]
  | cons a as =>
    rw [String.intercalate]
    exact not_mem_intercalate_go c s as a
      (hl a (List.mem_cons_self a as)) hs
      (fun x hx => hl x (List.mem_cons_of_mem a hx))

/-- The fixed column set of the dashboard CSV export: `Object.keys` of the
row objects built by `Dashboard.tasksCSV` (App.jsx lines 567 and 1330-1333),
in insertion order. -/
def csvHeaders : List String :=
  ["id", "project", "title", "assignee", "priority", "status", "dueDate",
   "estimateHrs", "updatedAt"]

/-- A dashboard CSV row (`{ id, project, title, assignee, priority, status,
dueDate, estimateHrs, updatedAt }`). -/
structure CsvRow where
  id : String
  project : String
  title : String
  assignee : String
  priority : String
  status : String
  dueDate : String
  estimateHrs : Int
  updatedAt : String
deriving DecidableEq, Repr

/-- The values of a row in header order (`headers.map(h => esc(r[h]))`
before escaping); the numeric `estimateHrs` is coerced to its decimal
string as JS `String(v)` does. -/
def rowValues (r : CsvRow) : List String :=
  [r.id, r.project, r.title, r.assignee, r.priority, r.status, r.dueDate,
   toString r.estimateHrs, r.updatedAt]

/-- One data line of the CSV: the escaped values joined with `","`. -/
def rowLine (r : CsvRow) : String :=
  String.intercalate "," ((rowValues r).map csvEsc)

/-- The `lines` array built by `toCSV` for a non-empty row list (App.jsx
lines 555 and 1295-1301): the joined header line followed by one data line
per row. -/
def csvLines (rows : List CsvRow) : List String :=
  String.intercalate "," csvHeaders :: rows.map rowLine

/-- Embedding of `toCSV(rows)` (App.jsx lines 555 and 1295-1301), specialised to the
dashboard's task-row shape — at both call sites every row carries the fixed
key set `csvHeaders`, so `Object.keys(rows[0])` is `csvHeaders`.  An empty
row list short-circuits to `""`; otherwise the lines are joined with
`"\n"`. -/
def toCSV (rows : List CsvRow) : String :=
  if rows.length = 0 then "" else String.intercalate "\n" (csvLines rows)

/-- Embedding of `Dashboard.projectName(id)` (App.jsx lines 566 and 1329):
`projects.find(p => p.id === id)?.name || ""`. -/
def projectName (projects : List Project) (pid : String) : String :=
  match projects.find? (fun p => p.id == pid) with
  | some p => p.name
  | none => ""

/-- Embedding of `Dashboard.tasksCSV` (App.jsx lines 567 and 1330-1333): the task list
mapped into dashboard CSV rows. -/
def tasksCSV (projects : List Project) (tasks : List Task) : List CsvRow :=
  tasks.map (fun t =>
    ⟨t.id, projectName projects t.projectId, t.title, t.assignee,
     t.priority, t.status, t.dueDate, t.estimateHrs, t.updatedAt⟩)

/-- C8 (counterexample): exporting `N = 0` tasks does not produce the
claimed `N + 1 = 1` lines consisting of the header line — `toCSV` returns
the empty string, which differs from the header line, so no header is
emitted at all. -/
theorem toCSV_empty_no_header :
    toCSV (tasksCSV [] []) = "" ∧
    toCSV (tasksCSV [] []) ≠ String.intercalate "," csvHeaders := by
  constructor
  · rfl
  · decide

/-- C8 (amended): exporting `N ≥ 1` tasks joins, with `"\n"`, exactly
`N + 1` newline-free lines — the fixed header line first, then one line per
task in order; exporting `N = 0` tasks yields the empty string (no header
line). -/
theorem toCSV_lines (projects : List Project) (tasks : List Task)
    (h : tasks ≠ []) :
    toCSV (tasksCSV projects tasks) =
      String.intercalate "\n" (csvLines (tasksCSV projects tasks)) ∧
    (csvLines (tasksCSV projects tasks)).length = tasks.length + 1 ∧
    (csvLines (tasksCSV projects tasks))[0]? =
      some (String.intercalate "," csvHeaders) ∧
    (∀ i : Nat, (csvLines (tasksCSV projects tasks))[i + 1]? =
      ((tasksCSV projects tasks)[i]?).map rowLine) ∧
    (∀ line ∈ csvLines (tasksCSV projects tasks), '\n' ∉ line.data) ∧
    toCSV (tasksCSV [] []) = "" := by
  have hlen : (tasksCSV projects tasks).length = tasks.length := by
    simp [tasksCSV]
  refine ⟨?_, ?_, by simp [csvLines], ?_, ?_, rfl⟩
  · have : ¬ (tasksCSV projects tasks).length = 0 := by
      rw [hlen]
      simpa using h
    simp [toCSV, this]
  · simp [csvLines, hlen]
  · intro i
    simp [csvLines, List.getElem?_map]
  · intro line hline
    rcases List.mem_cons.mp hline with rfl | hmem
    · decide
    · rcases List.mem_map.mp hmem with ⟨r, -, rfl⟩
      exact not_mem_intercalate '\n' "," _ (by decide)
        (fun x hx => by
          rcases List.mem_map.mp hx with ⟨v, -, rfl⟩
          exact newline_not_mem_csvEsc v)

/-- Witness for C8 (amended): exporting the two concrete tasks `[tDesign,
tShip]` against the project list `[pA, pB]` produces three lines — the
header plus one per task. -/
theorem toCSV_lines_witness :
    toCSV (tasksCSV [pA, pB] [tDesign, tShip]) =
      String.intercalate "\n" (csvLines (tasksCSV [pA, pB] [tDesign, tShip])) ∧
    (csvLines (tasksCSV [pA, pB] [tDesign, tShip])).length =
      ([tDesign, tShip] : List Task).length + 1 ∧
    (csvLines (tasksCSV [pA, pB] [tDesign, tShip]))[0]? =
      some (String.intercalate "," csvHeaders) :=
  have h := toCSV_lines [pA, pB] [tDesign, tShip] (by decide)
  ⟨h.1, h.2.1, h.2.2.1⟩

/-- JSON body of a request to `/api/notify`; each of the four fields may be
absent (`undefined` after destructuring). -/
structure NotifyBody where
  channel : Option String
  /-- The JSON field `to` (a Lean keyword, hence the name). -/
  toAddr : Option String
  subject : Option String
  message : Option String
deriving DecidableEq, Repr

/-- An incoming request to the notify endpoint: HTTP method and parsed JSON
body (`none` models a missing/empty `req.body`, defaulted to `{}` by
`req.body || {}`). -/
structure Request where
  method : String
  body : Option NotifyBody
deriving DecidableEq, Repr

/-- The handler's JSON response: HTTP status, the `ok` flag, and the
optional `delivered`/`simulated`/`error` fields of the respective
branches. -/
structure Response where
  status : Nat
  ok : Bool
  delivered : Option Bool
  simulated : Option Bool
  error : Option String
deriving DecidableEq, Repr

/-- JavaScript truthiness of a string-valued field as tested by
`!channel || !to || !subject || !message`: an absent field (`undefined`)
and the empty string are both falsy. -/
def truthyField : Option String → Bool
  | none => false
  | some s => s != ""

/-- Shallow embedding of the notify server handler
(`src/unnamed/part_000`): non-POST methods get `405`; the body is defaulted
with `req.body || {}` and destructured; if any of the four fields is falsy
the response is `400 {ok:false, error:"Missing fields"}`; otherwise the
request is logged and answered `200 {ok:true, delivered:false,
simulated:true}`.  The `catch` branch returning `500` is unreachable in this
model: destructuring the defaulted body cannot throw. -/
def handler (req : Request) : Response :=
  if req.method ≠ "POST" then
    ⟨405, false, none, none, some "Method Not Allowed"⟩
  else
    let b := req.body.getD ⟨none, none, none, none⟩
    if !(truthyField b.channel) || !(truthyField b.toAddr) ||
        !(truthyField b.subject) || !(truthyField b.message) then
      ⟨400, false, none, none, some "Missing fields"⟩
    else
      ⟨200, true, some false, some true, none⟩

/-- C9 (counterexample): a POST whose body contains all four fields but with
`channel` bound to the empty string is answered `400`, not the claimed
`200` — the handler tests truthiness, not presence. -/
theorem handler_present_empty_field_fails :
    (handler ⟨"POST",
        some ⟨some "", some "ops@example.com", some "Test", some "Hi"⟩⟩).status
      = 400 ∧
    ¬ (handler ⟨"POST",
        some ⟨some "", some "ops@example.com", some "Test", some "Hi"⟩⟩).status
      = 200 := by
  decide

/-- C9 (amended): the handler returns `200 {ok:true, delivered:false,
simulated:true}` exactly for POST requests whose body carries all four
fields with truthy (present and non-empty) values; `400` for POST requests
in which some field is absent or empty (including a missing body, defaulted
to `{}`); and `405` for every non-POST request. -/
theorem handler_spec (req : Request) :
    (req.method ≠ "POST" → (handler req).status = 405) ∧
    (req.method = "POST" → ∀ b, req.body = some b →
      ((truthyField b.channel = true ∧ truthyField b.toAddr = true ∧
          truthyField b.subject = true ∧ truthyField b.message = true) →
        handler req = ⟨200, true, some false, some true, none⟩) ∧
      ((truthyField b.channel = false ∨ truthyField b.toAddr = false ∨
          truthyField b.subject = false ∨ truthyField b.message = false) →
        (handler req).status = 400)) ∧
    (req.method = "POST" → req.body = none → (handler req).status = 400) := by
  refine ⟨?_, ?_, ?_⟩
  · intro h
    simp [handler, h]
  · intro hm b hb
    constructor
    · rintro ⟨h1, h2, h3, h4⟩
      simp [handler, hm, hb, h1, h2, h3, h4]
    · intro hbad
      rcases hbad with h | h | h | h <;>
        simp [handler, hm, hb, h]
  · intro hm hb
    simp [handler, hm, hb, truthyField]

/-- Witness for C9 (amended) covering all three branches at concrete
requests: a GET, a fully-populated POST, and a POST missing `message`. -/
theorem handler_spec_witness :
    (handler ⟨"GET", none⟩).status = 405 ∧
    handler ⟨"POST",
        some ⟨some "email", some "ops@example.com", some "Test", some "Hi"⟩⟩ =
      ⟨200, true, some false, some true, none⟩ ∧
    (handler ⟨"POST",
        some ⟨some "email", some "ops@example.com", some "Test", none⟩⟩).status
      = 400 :=
  ⟨(handler_spec ⟨"GET", none⟩).1 (by decide),
   ((handler_spec ⟨"POST",
       some ⟨some "email", some "ops@example.com", some "Test", some "Hi"⟩⟩).2.1
     rfl _ rfl).1 (by decide),
   ((handler_spec ⟨"POST",
       some ⟨some "email", some "ops@example.com", some "Test", none⟩⟩).2.1
     rfl _ rfl).2 (by decide)⟩

end PM
